import Mathlib

/-!
Verification of the sloggers logging library's file-rotation engine,
terminal/file builder configuration, and syslog identity discipline.

The Rust source is embedded shallowly:
* the filesystem is a directory (path → inode) plus an inode table
  (inode → byte content), so a handle to an externally deleted file keeps
  writing to its detached inode, as on POSIX systems;
* `FileAppender` (src/file.rs) is a record with the same fields, and its
  methods are pure functions threading the appender, the filesystem, the
  current instant (a natural number of milliseconds) and a trace of
  filesystem events;
* the syslog identity registry (src/syslog/drain.rs) is a record holding the
  `LAST_UNIQUE_IDENT` slot (a pointer modelled as a natural number, `0` being
  the null pointer), a fresh-pointer allocator and a trace of OS-level events.
-/

namespace Sloggers

/-- Paths as handed to the appender: either valid UTF-8 (carrying the string)
or non-UTF-8 (an opaque identifier), mirroring `PathBuf::to_str`. -/
inductive RPath where
  | utf8 (s : String)
  | raw (id : Nat)
deriving DecidableEq, Repr

/-- Mirrors `Path::to_str`: `some` exactly for valid UTF-8 paths. -/
def RPath.toStr : RPath → Option String
  | .utf8 s => some s
  | .raw _ => none

/-- Association-list lookup (first binding wins). -/
def alookup {α β : Type} [DecidableEq α] : List (α × β) → α → Option β
  | [], _ => none
  | (k, v) :: rest, a => if k = a then some v else alookup rest a

/-- Association-list update/insert. -/
def aset {α β : Type} [DecidableEq α] : List (α × β) → α → β → List (α × β)
  | [], a, b => [(a, b)]
  | (k, v) :: rest, a, b => if k = a then (a, b) :: rest else (k, v) :: aset rest a b

/-- Association-list removal of every binding of a key. -/
def aerase {α β : Type} [DecidableEq α] : List (α × β) → α → List (α × β)
  | [], _ => []
  | (k, v) :: rest, a => if k = a then aerase rest a else (k, v) :: aerase rest a

/-- Model filesystem: an inode table, a directory, a fresh-inode counter and
two fault-injection flags standing for I/O errors of `OpenOptions::open` and
`Write::write`. -/
structure Fs where
  inodes : List (Nat × List Nat)
  dir : List (RPath × Nat)
  nextIno : Nat
  openFails : Bool
  writeFails : Bool
deriving DecidableEq, Repr

/-- Mirrors `Path::exists`. -/
def Fs.fexists (fs : Fs) (p : RPath) : Bool :=
  (alookup fs.dir p).isSome

/-- Content currently reachable at a path (for stating postconditions). -/
def Fs.content (fs : Fs) (p : RPath) : Option (List Nat) :=
  (alookup fs.dir p).bind fun ino => alookup fs.inodes ino

/-- I/O errors the embedded code can produce.  `cannotOpen` is the
`"Cannot open file"` branch of `FileAppender::write`; `invalidInput` is the
non-UTF-8-path error of `rotated_path`. -/
inductive IoErr where
  | openFailed
  | writeFailed
  | invalidInput
  | cannotOpen
  | compressionAborted
  | compressionFailed
deriving DecidableEq, Repr

/-- Observable filesystem actions, used as the trace of a run. -/
inductive FsEvent where
  | statted (p : RPath)
  | opened (p : RPath)
  | renamed (src dst : RPath)
  | removed (p : RPath)
  | wrote (ino : Nat) (n : Nat)
  | spawnedCompression (plain out : RPath)
deriving DecidableEq, Repr

/-- Mirrors `OpenOptions::new().create(true).truncate(tr).append(!tr).write(true)
.open(path)` followed by `file.metadata()?.len()`: returns the inode, the
on-disk length right after opening, and the new filesystem. -/
def Fs.openAppend (fs : Fs) (p : RPath) (tr : Bool) : Except IoErr (Nat × Nat × Fs) :=
  if fs.openFails then .error .openFailed else
  match alookup fs.dir p with
  | some ino =>
      let c0 := (alookup fs.inodes ino).getD []
      let c := if tr then [] else c0
      .ok (ino, c.length, { fs with inodes := aset fs.inodes ino c })
  | none =>
      let ino := fs.nextIno
      .ok (ino, 0, { fs with
        inodes := aset fs.inodes ino [],
        dir := aset fs.dir p ino,
        nextIno := ino + 1 })

/-- Append bytes to an open inode (a successful `BufWriter::write`). -/
def Fs.appendIno (fs : Fs) (ino : Nat) (bytes : List Nat) : Fs :=
  { fs with inodes := aset fs.inodes ino ((alookup fs.inodes ino).getD [] ++ bytes) }

/-- Mirrors `fs::rename`. -/
def Fs.rename (fs : Fs) (src dst : RPath) : Fs :=
  match alookup fs.dir src with
  | some ino => { fs with dir := aset (aerase fs.dir src) dst ino }
  | none => fs

/-- Mirrors `fs::remove_file`. -/
def Fs.remove (fs : Fs) (p : RPath) : Fs :=
  { fs with dir := aerase fs.dir p }

/-- State of `wait_compression`'s `try_recv`: a still-running job, a finished
job (with its result), or a disconnected worker. -/
inductive CompressionWait where
  | pending
  | doneOk
  | doneErr
  | disconnected
deriving DecidableEq, Repr

/-- The `FileAppender` struct of src/file.rs, field for field.  Instants are
naturals; `file` holds the inode the open handle points at. -/
structure FileAppender where
  path : RPath
  file : Option Nat
  truncate : Bool
  written_size : Nat
  rotate_size : Nat
  rotate_keep : Nat
  rotate_compress : Bool
  wait_compression : Option CompressionWait
  next_reopen_check : Nat
  reopen_check_interval : Nat
  restrict_permissions : Bool
deriving DecidableEq, Repr

/-- `u64::MAX`, the default `rotate_size`. -/
def default_rotate_size : Nat := 2 ^ 64 - 1

/-- `FileAppender::new` (the `Instant::now()` of construction is a parameter). -/
def FileAppender.new (p : RPath) (now : Nat) : FileAppender :=
  { path := p
    file := none
    truncate := false
    written_size := 0
    rotate_size := default_rotate_size
    rotate_keep := 8
    rotate_compress := false
    wait_compression := none
    next_reopen_check := now
    reopen_check_interval := 1000
    restrict_permissions := false }

/-- The manual `Clone` impl of `FileAppender`: configuration is copied, the
runtime state (handle, written size, compression wait, reopen clock) is
reset. -/
def FileAppender.clone (a : FileAppender) (now : Nat) : FileAppender :=
  { path := a.path
    file := none
    truncate := a.truncate
    written_size := 0
    rotate_size := a.rotate_size
    rotate_keep := a.rotate_keep
    rotate_compress := a.rotate_compress
    wait_compression := none
    next_reopen_check := now
    reopen_check_interval := a.reopen_check_interval
    restrict_permissions := a.restrict_permissions }

/-- `FileAppender::reopen_if_needed`.  The existence check is throttled: it
runs only when `now >= next_reopen_check` (and then schedules the next check);
otherwise the path is assumed to exist.  The file is (re)opened when the
handle is absent or the check found the path missing; on success
`written_size` becomes the on-disk length. -/
def FileAppender.reopen_if_needed (a : FileAppender) (fs : Fs) (now : Nat) :
    Except IoErr Unit × FileAppender × Fs × List FsEvent :=
  let check := a.next_reopen_check ≤ now
  let a1 := if check then { a with next_reopen_check := now + a.reopen_check_interval } else a
  let pathExists := if check then fs.fexists a.path else true
  let evs := if check then [FsEvent.statted a.path] else []
  if a1.file.isNone || !pathExists then
    let a2 := { a1 with file := none }
    match fs.openAppend a.path a.truncate with
    | .error e => (.error e, a2, fs, evs)
    | .ok (ino, len, fs') =>
        (.ok (), { a2 with file := some ino, written_size := len }, fs',
         evs ++ [FsEvent.opened a.path])
  else (.ok (), a1, fs, evs)

/-- `FileAppender::rotated_path`: fails with an invalid-input error on a
non-UTF-8 path, otherwise produces `path.i` (or `path.i.gz` when compression
is enabled). -/
def FileAppender.rotated_path (a : FileAppender) (i : Nat) : Except IoErr RPath :=
  match a.path.toStr with
  | none => .error .invalidInput
  | some s =>
      if a.rotate_compress then .ok (.utf8 (s ++ "." ++ toString i ++ ".gz"))
      else .ok (.utf8 (s ++ "." ++ toString i))

/-- `FileAppender::rotated_paths_for_compression`: the temporary plaintext
name `path.1` and the temporary gzip name `path.1.gz.temp`. -/
def FileAppender.rotated_paths_for_compression (a : FileAppender) :
    Except IoErr (RPath × RPath) :=
  match a.path.toStr with
  | none => .error .invalidInput
  | some s => .ok (.utf8 (s ++ ".1"), .utf8 (s ++ ".1.gz.temp"))

/-- The `for i in (1..=rotate_keep).rev()` loop of `rotate_old_files`:
`shiftChain a i fs` handles indices `i, i-1, …, 1`, renaming `path.i`
to `path.(i+1)` when it exists. -/
def shiftChain (a : FileAppender) : Nat → Fs → Except IoErr Unit × Fs × List FsEvent
  | 0, fs => (.ok (), fs, [])
  | i + 1, fs =>
    match a.rotated_path (i + 1), a.rotated_path (i + 2) with
    | .ok src, .ok dst =>
        if fs.fexists src then
          let out := shiftChain a i (fs.rename src dst)
          (out.1, out.2.1, FsEvent.renamed src dst :: out.2.2)
        else shiftChain a i fs
    | .error e, _ => (.error e, fs, [])
    | .ok _, .error e => (.error e, fs, [])

/-- `FileAppender::rotate_old_files`: shift the chain, move the live file to
index 1 (directly, or to the plaintext temporary plus a spawned compression
job when compression is enabled), then delete index `rotate_keep + 1`. -/
def FileAppender.rotate_old_files (a : FileAppender) (fs : Fs) :
    Except IoErr Unit × FileAppender × Fs × List FsEvent :=
  match shiftChain a a.rotate_keep fs with
  | (.error e, fs1, evs1) => (.error e, a, fs1, evs1)
  | (.ok _, fs1, evs1) =>
    let liveStep : Except IoErr (FileAppender × Fs × List FsEvent) :=
      if fs1.fexists a.path then
        match a.rotated_path 1 with
        | .error e => .error e
        | .ok rotated =>
          if a.rotate_compress then
            match a.rotated_paths_for_compression with
            | .error e => .error e
            | .ok (plain, _temp) =>
                .ok ({ a with wait_compression := some .pending },
                     fs1.rename a.path plain,
                     [FsEvent.renamed a.path plain,
                      FsEvent.spawnedCompression plain rotated])
          else .ok (a, fs1.rename a.path rotated, [FsEvent.renamed a.path rotated])
      else .ok (a, fs1, [])
    match liveStep with
    | .error e => (.error e, a, fs1, evs1)
    | .ok (a2, fs2, evs2) =>
      match a.rotated_path (a.rotate_keep + 1) with
      | .error e => (.error e, a2, fs2, evs1 ++ evs2)
      | .ok delPath =>
        if fs2.fexists delPath then
          (.ok (), a2, fs2.remove delPath, evs1 ++ evs2 ++ [FsEvent.removed delPath])
        else (.ok (), a2, fs2, evs1 ++ evs2)

/-- `FileAppender::rotate` (non-Windows path): poll the compression job
(skipping the cycle if it is still running, failing if it aborted or its
result was an error), drop the handle, shift the old files, reset
`written_size`, force the next reopen check and reopen the live file. -/
def FileAppender.rotate (a : FileAppender) (fs : Fs) (now : Nat) :
    Except IoErr Unit × FileAppender × Fs × List FsEvent :=
  match a.wait_compression with
  | some .pending => (.ok (), a, fs, [])
  | some .disconnected => (.error .compressionAborted, a, fs, [])
  | some .doneErr => (.error .compressionFailed, a, fs, [])
  | _ =>
    let a1 := { a with wait_compression := none, file := none }
    match a1.rotate_old_files fs with
    | (.error e, a2, fs1, evs) => (.error e, a2, fs1, evs)
    | (.ok _, a2, fs1, evs) =>
      let a3 := { a2 with written_size := 0, next_reopen_check := now }
      let out := a3.reopen_if_needed fs1 now
      (out.1, out.2.1, out.2.2.1, evs ++ out.2.2.2)

/-- `<FileAppender as Write>::write`: lazily reopen, then append to the open
handle (the `none` branch is the `"Cannot open file"` error), incrementing
`written_size` by the number of bytes written. -/
def FileAppender.write (a : FileAppender) (fs : Fs) (now : Nat) (buf : List Nat) :
    Except IoErr Nat × FileAppender × Fs × List FsEvent :=
  match a.reopen_if_needed fs now with
  | (.error e, a1, fs1, evs) => (.error e, a1, fs1, evs)
  | (.ok _, a1, fs1, evs) =>
    match a1.file with
    | some ino =>
        if fs1.writeFails then (.error .writeFailed, a1, fs1, evs)
        else
          (.ok buf.length,
           { a1 with written_size := a1.written_size + buf.length },
           fs1.appendIno ino buf,
           evs ++ [FsEvent.wrote ino buf.length])
    | none => (.error .cannotOpen, a1, fs1, evs)

/-- `<FileAppender as Write>::flush`: flush the buffered handle (a no-op in
this unbuffered model), then rotate exactly when
`written_size >= rotate_size`. -/
def FileAppender.flush (a : FileAppender) (fs : Fs) (now : Nat) :
    Except IoErr Unit × FileAppender × Fs × List FsEvent :=
  if a.rotate_size ≤ a.written_size then a.rotate fs now
  else (.ok (), a, fs, [])

/-- On-disk length a (re)open observes: the existing content's length (zero
under truncation), or zero for a freshly created file. -/
def Fs.onDiskLen (fs : Fs) (p : RPath) (tr : Bool) : Nat :=
  match alookup fs.dir p with
  | some ino => if tr then 0 else ((alookup fs.inodes ino).getD []).length
  | none => 0

/-! ### The rotation procedure as the specification words it

`specRotatedName`, `specShift` and `specRotation` are written from the
claim's sentences, not from the source: the chain is shifted for `i` from the
retention count down to 1 (names `path.i`, or `path.i.gz` under compression),
the live file is then moved to index 1 (to the plaintext temporary with a
spawned compression job when compression is enabled), and the file at index
`retention_count + 1` is deleted if present.  The rotation theorem compares
the source-derived `FileAppender.rotate` against these. -/

/-- Name of the i-th rotated file per the specification. -/
def specRotatedName (s : String) (compress : Bool) (i : Nat) : RPath :=
  if compress then .utf8 (s ++ "." ++ toString i ++ ".gz")
  else .utf8 (s ++ "." ++ toString i)

/-- The specification's shift of the rotation chain, for indices
`i, i-1, …, 1`. -/
def specShift (s : String) (compress : Bool) : Nat → Fs → Fs × List FsEvent
  | 0, fs => (fs, [])
  | i + 1, fs =>
    if fs.fexists (specRotatedName s compress (i + 1)) then
      let out := specShift s compress i
        (fs.rename (specRotatedName s compress (i + 1)) (specRotatedName s compress (i + 2)))
      (out.1, FsEvent.renamed (specRotatedName s compress (i + 1))
                (specRotatedName s compress (i + 2)) :: out.2)
    else specShift s compress i fs

/-- The specification's whole rotation of the on-disk files. -/
def specRotation (s : String) (compress : Bool) (keep : Nat) (fs : Fs) :
    Fs × List FsEvent :=
  let out1 := specShift s compress keep fs
  let out2 :=
    if out1.1.fexists (.utf8 s) then
      if compress then
        (out1.1.rename (.utf8 s) (.utf8 (s ++ ".1")),
         [FsEvent.renamed (.utf8 s) (.utf8 (s ++ ".1")),
          FsEvent.spawnedCompression (.utf8 (s ++ ".1")) (specRotatedName s compress 1)])
      else
        (out1.1.rename (.utf8 s) (specRotatedName s compress 1),
         [FsEvent.renamed (.utf8 s) (specRotatedName s compress 1)])
    else (out1.1, [])
  let out3 :=
    if out2.1.fexists (specRotatedName s compress (keep + 1)) then
      (out2.1.remove (specRotatedName s compress (keep + 1)),
       [FsEvent.removed (specRotatedName s compress (keep + 1))])
    else (out2.1, [])
  (out3.1, out1.2 ++ out2.2 ++ out3.2)

/-! ### Builders, configurations and the terminal destination -/

/-- Log severities (src/types.rs). -/
inductive Severity where
  | trace | debug | info | warning | error | critical
deriving DecidableEq, Repr

/-- The default severity is `Info`. -/
def Severity.default : Severity := .info

/-- Log record formats (src/types.rs). -/
inductive Format where
  | full | compact | json
deriving DecidableEq, Repr

/-- The default format is `Full`. -/
def Format.default : Format := .full

/-- Time zones (src/types.rs). -/
inductive TimeZone where
  | utc | local
deriving DecidableEq, Repr

/-- Source-location verbosity (src/types.rs). -/
inductive SourceLocation where
  | noLocation | moduleAndLine | fileAndLine | localFileAndLine
deriving DecidableEq, Repr

/-- Overflow strategies (src/types.rs). -/
inductive OverflowStrategy where
  | drop | dropAndReport | block
deriving DecidableEq, Repr

/-- The `BuilderCommon` struct of src/build.rs. -/
structure BuilderCommon where
  source_location : SourceLocation
  overflow_strategy : OverflowStrategy
  level : Severity
  channel_size : Nat
deriving DecidableEq, Repr

/-- The `FileLoggerBuilder` struct of src/file.rs. -/
structure FileLoggerBuilder where
  common : BuilderCommon
  format : Format
  timezone : TimeZone
  appender : FileAppender
deriving DecidableEq, Repr

/-- Configuration-derived behaviour plus runtime state of a built file
logger: the formatter kind, the severity threshold and wiring from
`BuilderCommon`, and the cloned appender the drain writes through. -/
structure FileLogger where
  format : Format
  level : Severity
  source_location : SourceLocation
  overflow_strategy : OverflowStrategy
  channel_size : Nat
  timezone : TimeZone
  appender : FileAppender
deriving DecidableEq, Repr

/-- `<FileLoggerBuilder as Build>::build`: reads the builder through a shared
reference (so it is a pure function of the builder) and clones the appender
into the new logger. -/
def FileLoggerBuilder.build (b : FileLoggerBuilder) (now : Nat) : FileLogger :=
  { format := b.format
    level := b.common.level
    source_location := b.common.source_location
    overflow_strategy := b.common.overflow_strategy
    channel_size := b.common.channel_size
    timezone := b.timezone
    appender := b.appender.clone now }

/-- `ErrorKind` of src/error.rs. -/
inductive ErrorKind where
  | invalid
  | other
deriving DecidableEq, Repr

/-- The `FileLoggerConfig` struct of src/file.rs. -/
structure FileLoggerConfig where
  level : Severity
  format : Format
  source_location : SourceLocation
  timezone : TimeZone
  timestamp_template : String
  path : RPath
  channel_size : Nat
  truncate : Bool
  rotate_size : Nat
  rotate_keep : Nat
  rotate_compress : Bool
  overflow_strategy : OverflowStrategy
  restrict_permissions : Bool
deriving DecidableEq, Repr

/-- `path_template_to_path` with the chrono-formatted timestamp string passed
in (timestamp formatting is an external collaborator). -/
def path_template_to_path (template ts : String) : RPath :=
  .utf8 (template.replace "{timestamp}" ts)

/-- `<FileLoggerConfig as Config>::try_to_builder`: rejects a non-UTF-8 path
with `ErrorKind::Invalid`, otherwise substitutes the timestamp into the path
template and fills a `FileLoggerBuilder` by the chained setters. -/
def FileLoggerConfig.try_to_builder (c : FileLoggerConfig) (ts : String) (now : Nat) :
    Except ErrorKind FileLoggerBuilder :=
  match c.path.toStr with
  | none => .error .invalid
  | some template =>
      .ok { common :=
              { source_location := c.source_location
                overflow_strategy := c.overflow_strategy
                level := c.level
                channel_size := c.channel_size }
            format := c.format
            timezone := c.timezone
            appender :=
              { FileAppender.new (path_template_to_path template ts) now with
                  rotate_size := c.rotate_size
                  rotate_keep := c.rotate_keep
                  rotate_compress := c.rotate_compress
                  restrict_permissions := c.restrict_permissions
                  truncate := c.truncate } }

/-- The terminal `Destination` enum (src/terminal.rs). -/
inductive Destination where
  | stdout
  | stderr
deriving DecidableEq, Repr

/-- The `Default` impl of `Destination`. -/
def Destination.default : Destination := .stdout

/-- Deserialization of one `Destination` token under
`#[serde(rename_all = "lowercase")]`. -/
def parseDestination (s : String) : Option Destination :=
  if s = "stdout" then some .stdout
  else if s = "stderr" then some .stderr
  else none

/-- Deserialization of the `destination` field of a configuration document:
an absent field takes the serde default, a present field must parse. -/
def deserializeDestination (field : Option String) : Except ErrorKind Destination :=
  match field with
  | none => .ok Destination.default
  | some s =>
    match parseDestination s with
    | some d => .ok d
    | none => .error .invalid

/-- The `TerminalLoggerBuilder` struct of src/terminal.rs. -/
structure TerminalLoggerBuilder where
  format : Format
  source_location : SourceLocation
  timezone : TimeZone
  destination : Destination
  level : Severity
  channel_size : Nat
deriving DecidableEq, Repr

/-- `TerminalLoggerBuilder::new`, all fields at their defaults. -/
def TerminalLoggerBuilder.new : TerminalLoggerBuilder :=
  { format := Format.default
    source_location := .moduleAndLine
    timezone := .local
    destination := Destination.default
    level := Severity.default
    channel_size := 1024 }

/-- The `destination` field of `TerminalLoggerConfig::default()` (all serde
defaults). -/
def terminalConfigDefaultDestination : Destination := Destination.default

/-! ### Syslog identity discipline (src/syslog/drain.rs) -/

/-- OS-level syslog events, as the mock layer records them. -/
inductive SysEvent where
  | openLog (ident : String)
  | closeLog
  | sysLog (priority : Nat) (messageF message : String)
  | dropOwnedIdent (ident : String)
deriving DecidableEq, Repr

/-- Whether an event is the `closelog` call. -/
def SysEvent.isClose : SysEvent → Bool
  | .closeLog => true
  | _ => false

/-- Number of `closelog` calls in a trace. -/
def countClose (evs : List SysEvent) : Nat :=
  (evs.filter SysEvent.isClose).length

/-- The `ident` argument a `SyslogBuilder` carries: an owned string, a
borrowed `'static` string, or none (a null pointer). -/
inductive IdentArg where
  | owned (s : String)
  | borrowed (s : String)
  | noIdent
deriving DecidableEq, Repr

/-- Process-wide syslog state: the `LAST_UNIQUE_IDENT` slot (`0` is the null
pointer), a fresh-address allocator for newly materialized ident strings, and
the trace of OS calls. -/
structure SyslogGlobal where
  lastUniqueIdent : Nat
  nextPtr : Nat
  events : List SysEvent
deriving DecidableEq, Repr

/-- The state before any syslog sink exists. -/
def SyslogGlobal.init : SyslogGlobal :=
  { lastUniqueIdent := 0, nextPtr := 1, events := [] }

/-- The `SyslogDrain` struct: the owned ident string (with its address), if
any. -/
structure SyslogDrain where
  unique_ident : Option (Nat × String)
deriving DecidableEq, Repr

/-- `SyslogDrain::new`: call `openlog` under the mutex, then — only when the
ident pointer is non-null — store the owned string's address in the slot, or
null it out for a borrowed ident. -/
def SyslogDrain.new (ident : IdentArg) (g : SyslogGlobal) :
    SyslogDrain × SyslogGlobal :=
  match ident with
  | .owned s =>
      let p := g.nextPtr
      (⟨some (p, s)⟩,
       { lastUniqueIdent := p, nextPtr := p + 1,
         events := g.events ++ [SysEvent.openLog s] })
  | .borrowed s =>
      (⟨none⟩,
       { lastUniqueIdent := 0, nextPtr := g.nextPtr + 1,
         events := g.events ++ [SysEvent.openLog s] })
  | .noIdent =>
      (⟨none⟩, { g with events := g.events ++ [SysEvent.openLog ""] })

/-- The `Drop` impl of `SyslogDrain`: with an owned ident, `closelog` and
clear the slot exactly when the slot still holds this drain's address; the
owned string is then dropped (recorded by the mock layer) either way. -/
def SyslogDrain.dropDrain (d : SyslogDrain) (g : SyslogGlobal) : SyslogGlobal :=
  match d.unique_ident with
  | none => g
  | some (p, s) =>
      if g.lastUniqueIdent = p then
        { g with lastUniqueIdent := 0,
                 events := g.events ++ [SysEvent.closeLog, SysEvent.dropOwnedIdent s] }
      else { g with events := g.events ++ [SysEvent.dropOwnedIdent s] }

/-! ### The syslog drain's log path (Drain::log) -/

/-- `slog::Never`, the drain's error type: uninhabited. -/
inductive SlogNever : Type

/-- `slog::Level` as the record carries it. -/
inductive Level where
  | critical | error | warning | info | debug | trace
deriving DecidableEq, Repr

/-- A log record as `SyslogDrain::log` consumes it: its level and its bare
message (structured fields live inside the formatter argument). -/
structure LogRecord where
  level : Level
  msg : String
deriving DecidableEq, Repr

/-- The priority mapping of `SyslogDrain::log` (libc numeric values):
`LOG_CRIT = 2`, `LOG_ERR = 3`, `LOG_WARNING = 4`, `LOG_INFO = 6`,
`LOG_DEBUG = 7`. -/
def priorityOf : Level → Nat
  | .critical => 2
  | .error => 3
  | .warning => 4
  | .debug => 7
  | .trace => 7
  | .info => 6

/-- `to_cstring_lossy`: strip interior NUL bytes. -/
def to_cstring_lossy (s : String) : String :=
  String.mk (s.toList.filter fun c => c ≠ Char.ofNat 0)

/-- The events `SyslogDrain::log` emits: the formatted message, falling back
to the record's raw message when the formatter fails, plus a separate error
message in the failure case. -/
def SyslogDrain.logEvents (fmt : LogRecord → Except String String)
    (r : LogRecord) : List SysEvent :=
  let pair : String × Option String :=
    match fmt r with
    | .ok m => (m, none)
    | .error e => (r.msg, some e)
  [SysEvent.sysLog (priorityOf r.level) "%s" (to_cstring_lossy pair.1)] ++
    (match pair.2 with
     | none => []
     | some e =>
         [SysEvent.sysLog 3 "Error fully formatting the previous log message: %s"
            (to_cstring_lossy e)])

/-- `SyslogDrain::log`'s result: always `Ok` (its error type is
`slog::Never`), carrying the emitted events. -/
def SyslogDrain.log (fmt : LogRecord → Except String String) (r : LogRecord) :
    Except SlogNever (List SysEvent) :=
  .ok (SyslogDrain.logEvents fmt r)

/-- The consumer thread folding `log` over a backlog of records. -/
def consumeAll (fmt : LogRecord → Except String String)
    (rs : List LogRecord) : List (List SysEvent) :=
  rs.map (SyslogDrain.logEvents fmt)

/-! ### Association-list and filesystem lemmas -/

theorem alookup_aset {α β : Type} [DecidableEq α] (l : List (α × β)) (a : α) (b : β)
    (c : α) : alookup (aset l a b) c = if a = c then some b else alookup l c := by
  induction l with
  | nil => simp [aset, alookup]
  | cons kv rest ih =>
      obtain ⟨k, v⟩ := kv
      by_cases hka : k = a
      · subst hka
        by_cases hkc : k = c <;> simp [aset, alookup, hkc]
      · by_cases hkc : k = c
        · subst hkc
          have hac : ¬ a = k := fun h => hka h.symm
          simp [aset, alookup, hka, hac]
        · simp [aset, alookup, hka, hkc, ih]

theorem alookup_aerase {α β : Type} [DecidableEq α] (l : List (α × β)) (a c : α) :
    alookup (aerase l a) c = if a = c then none else alookup l c := by
  induction l with
  | nil => simp [aerase, alookup]
  | cons kv rest ih =>
      obtain ⟨k, v⟩ := kv
      by_cases hka : k = a
      · subst hka
        rw [show aerase ((k, v) :: rest) k = aerase rest k from by simp [aerase], ih]
        by_cases hkc : k = c
        · simp [hkc]
        · simp [alookup, hkc]
      · rw [show aerase ((k, v) :: rest) a = (k, v) :: aerase rest a from by
            simp [aerase, hka]]
        by_cases hkc : k = c
        · subst hkc
          have hac : ¬ a = k := fun h => hka h.symm
          simp [alookup, hac]
        · simp [alookup, hkc, ih]

theorem fexists_rename_of_ne (fs : Fs) (src dst p : RPath)
    (hs : p ≠ src) (hd : p ≠ dst) :
    (fs.rename src dst).fexists p = fs.fexists p := by
  unfold Fs.rename
  cases h : alookup fs.dir src with
  | none => rfl
  | some ino =>
      have hds : ¬ dst = p := fun h => hd h.symm
      have hss : ¬ src = p := fun h => hs h.symm
      simp [Fs.fexists, alookup_aset, alookup_aerase, hds, hss]

theorem fexists_rename_src (fs : Fs) (src dst : RPath) (hne : src ≠ dst) :
    (fs.rename src dst).fexists src = false := by
  unfold Fs.rename
  cases h : alookup fs.dir src with
  | none => simp [Fs.fexists, h]
  | some ino =>
      have hds : ¬ dst = src := fun h => hne h.symm
      simp [Fs.fexists, alookup_aset, alookup_aerase, hds]

theorem fexists_remove (fs : Fs) (p q : RPath) :
    (fs.remove p).fexists q = if p = q then false else fs.fexists q := by
  unfold Fs.remove Fs.fexists
  by_cases h : p = q <;> simp [alookup_aerase, h]

theorem openAppend_fresh (fs : Fs) (p : RPath) (tr : Bool)
    (habsent : fs.fexists p = false) (hok : fs.openFails = false) :
    fs.openAppend p tr =
      .ok (fs.nextIno, 0,
        { fs with inodes := aset fs.inodes fs.nextIno [],
                  dir := aset fs.dir p fs.nextIno,
                  nextIno := fs.nextIno + 1 }) := by
  unfold Fs.openAppend
  unfold Fs.fexists at habsent
  cases h : alookup fs.dir p with
  | none => simp [hok]
  | some ino => rw [h] at habsent; simp at habsent

/-! ### Structure of `reopen_if_needed` -/

theorem reopen_events_subset (a : FileAppender) (fs : Fs) (now : Nat) (e : FsEvent)
    (h : e ∈ (a.reopen_if_needed fs now).2.2.2) :
    e = FsEvent.statted a.path ∨ e = FsEvent.opened a.path := by
  unfold FileAppender.reopen_if_needed at h
  by_cases hc : a.next_reopen_check ≤ now <;>
    simp only [hc, if_true, if_false, reduceIte] at h <;>
    split at h <;>
    first
      | (rcases hm : fs.openAppend a.path a.truncate with _ | _ <;>
          rw [hm] at h <;> simp_all)
      | simp_all

theorem openAppend_error_classified (fs : Fs) (p : RPath) (tr : Bool) (e : IoErr)
    (h : fs.openAppend p tr = .error e) : e = .openFailed := by
  unfold Fs.openAppend at h
  split at h
  · cases h; rfl
  · split at h <;> simp_all

theorem reopen_ok_file_isSome (a : FileAppender) (fs : Fs) (now : Nat)
    (a' : FileAppender) (fs' : Fs) (evs : List FsEvent)
    (h : a.reopen_if_needed fs now = (.ok (), a', fs', evs)) :
    a'.file.isSome := by
  unfold FileAppender.reopen_if_needed at h
  by_cases hc : a.next_reopen_check ≤ now
  all_goals simp only [hc, if_true, if_false, reduceIte] at h
  all_goals split at h
  case pos.isTrue =>
    rcases hm : fs.openAppend a.path a.truncate with e' | v
    · rw [hm] at h; simp at h
    · obtain ⟨ino, len, fs''⟩ := v
      rw [hm] at h
      simp only [Prod.mk.injEq] at h
      obtain ⟨-, h2, -, -⟩ := h
      rw [← h2]
      rfl
  case pos.isFalse hcond =>
    have hne : a.file ≠ none := by
      intro hn
      exact hcond (by simp [hn])
    simp only [Prod.mk.injEq] at h
    obtain ⟨-, h2, -, -⟩ := h
    rw [← h2]
    simpa [Option.isSome_iff_ne_none] using hne
  case neg.isTrue =>
    rcases hm : fs.openAppend a.path a.truncate with e' | v
    · rw [hm] at h; simp at h
    · obtain ⟨ino, len, fs''⟩ := v
      rw [hm] at h
      simp only [Prod.mk.injEq] at h
      obtain ⟨-, h2, -, -⟩ := h
      rw [← h2]
      rfl
  case neg.isFalse hcond =>
    have hne : a.file ≠ none := by
      intro hn
      exact hcond (by simp [hn])
    simp only [Prod.mk.injEq] at h
    obtain ⟨-, h2, -, -⟩ := h
    rw [← h2]
    simpa [Option.isSome_iff_ne_none] using hne

theorem reopen_error_classified (a : FileAppender) (fs : Fs) (now : Nat)
    (e : IoErr) (h : (a.reopen_if_needed fs now).1 = .error e) :
    e = .openFailed := by
  unfold FileAppender.reopen_if_needed at h
  by_cases hc : a.next_reopen_check ≤ now
  all_goals simp only [hc, if_true, if_false, reduceIte] at h
  all_goals split at h
  case pos.isTrue =>
    rcases hm : fs.openAppend a.path a.truncate with e' | v
    · rw [hm] at h
      injection h with he
      rw [← he]
      exact openAppend_error_classified fs a.path a.truncate e' hm
    · obtain ⟨ino, len, fs''⟩ := v
      rw [hm] at h
      simp at h
  case pos.isFalse => simp at h
  case neg.isTrue =>
    rcases hm : fs.openAppend a.path a.truncate with e' | v
    · rw [hm] at h
      injection h with he
      rw [← he]
      exact openAppend_error_classified fs a.path a.truncate e' hm
    · obtain ⟨ino, len, fs''⟩ := v
      rw [hm] at h
      simp at h
  case neg.isFalse => simp at h

/-! ### Structure of `write` -/

theorem write_events_subset (a : FileAppender) (fs : Fs) (now : Nat) (buf : List Nat)
    (e : FsEvent) (h : e ∈ (a.write fs now buf).2.2.2) :
    e = FsEvent.statted a.path ∨ e = FsEvent.opened a.path ∨
      ∃ ino, e = FsEvent.wrote ino buf.length := by
  unfold FileAppender.write at h
  rcases hr : a.reopen_if_needed fs now with ⟨r, a1, fs1, evs⟩
  have hsub : ∀ x ∈ evs, x = FsEvent.statted a.path ∨ x = FsEvent.opened a.path := by
    intro x hx
    exact reopen_events_subset a fs now x (by rw [hr]; exact hx)
  rw [hr] at h
  cases r with
  | error e' =>
      dsimp only at h
      rcases hsub e h with h1 | h1
      · exact Or.inl h1
      · exact Or.inr (Or.inl h1)
  | ok u =>
      dsimp only at h
      rcases hf : a1.file with _ | ino
      all_goals rw [hf] at h
      · dsimp only at h
        rcases hsub e h with h1 | h1
        · exact Or.inl h1
        · exact Or.inr (Or.inl h1)
      · dsimp only at h
        by_cases hw : fs1.writeFails
        · simp [hw] at h
          rcases hsub e h with h1 | h1
          · exact Or.inl h1
          · exact Or.inr (Or.inl h1)
        · simp [hw] at h
          rcases h with h | h
          · rcases hsub e h with h1 | h1
            · exact Or.inl h1
            · exact Or.inr (Or.inl h1)
          · exact Or.inr (Or.inr ⟨ino, h⟩)

theorem write_ok_spec (a : FileAppender) (fs : Fs) (now : Nat) (buf : List Nat)
    (n : Nat) (h : (a.write fs now buf).1 = .ok n) :
    n = buf.length ∧
    (a.write fs now buf).2.1.written_size
      = (a.reopen_if_needed fs now).2.1.written_size + buf.length := by
  unfold FileAppender.write at h ⊢
  generalize hgen : a.reopen_if_needed fs now = res at h ⊢
  obtain ⟨r, a1, fs1, evs⟩ := res
  cases r with
  | error e' => simp at h
  | ok u =>
      dsimp only at h ⊢
      rcases hf : a1.file with _ | ino
      · simp [hf] at h
      · by_cases hw : fs1.writeFails
        · simp [hf, hw] at h
        · simp only [hf, hw, Bool.false_eq_true, if_false, Except.ok.injEq] at h ⊢
          exact ⟨h.symm, trivial⟩

/-! ### Example instances used by the witnesses -/

/-- A concrete appender: UTF-8 path, rotation threshold 5 bytes, keep 2. -/
def exApp : FileAppender :=
  { FileAppender.new (.utf8 "log") 0 with rotate_size := 5, rotate_keep := 2 }

/-- The empty filesystem with no injected faults. -/
def exFs : Fs :=
  { inodes := [], dir := [], nextIno := 0, openFails := false, writeFails := false }

/-! ### Claim C1 -/

/-- Claim C1: for every call to `flush`, rotation is performed if and only if
(after flushing buffered bytes) `written_size >= rotate_size`; `write` never
performs rotation itself — it emits no rename or delete, only appends bytes
after a possible lazy reopen, and increases `written_size` by the number of
bytes written. -/
theorem C1_flush_rotates_iff_threshold_write_never_rotates
    (a : FileAppender) (fs : Fs) (now : Nat) (buf : List Nat) :
    (∀ src dst, FsEvent.renamed src dst ∉ (a.write fs now buf).2.2.2) ∧
    (∀ p, FsEvent.removed p ∉ (a.write fs now buf).2.2.2) ∧
    (∀ n, (a.write fs now buf).1 = .ok n →
        n = buf.length ∧
        (a.write fs now buf).2.1.written_size
          = (a.reopen_if_needed fs now).2.1.written_size + buf.length) ∧
    (a.written_size < a.rotate_size → a.flush fs now = (.ok (), a, fs, [])) ∧
    (a.rotate_size ≤ a.written_size → a.flush fs now = a.rotate fs now) := by
  refine ⟨?_, ?_, ?_, ?_, ?_⟩
  · intro src dst hmem
    rcases write_events_subset a fs now buf _ hmem with h | h | ⟨ino, h⟩ <;> simp at h
  · intro p hmem
    rcases write_events_subset a fs now buf _ hmem with h | h | ⟨ino, h⟩ <;> simp at h
  · intro n hn
    exact write_ok_spec a fs now buf n hn
  · intro hlt
    unfold FileAppender.flush
    rw [if_neg (Nat.not_le.mpr hlt)]
  · intro hge
    unfold FileAppender.flush
    rw [if_pos hge]

/-- Witness for C1 at a concrete appender below the rotation threshold and a
concrete successful write. -/
theorem C1_witness :
    exApp.flush exFs 0 = (.ok (), exApp, exFs, []) ∧
    (exApp.write exFs 0 [1, 2, 3]).2.1.written_size
      = (exApp.reopen_if_needed exFs 0).2.1.written_size + 3 := by
  have h := C1_flush_rotates_iff_threshold_write_never_rotates exApp exFs 0 [1, 2, 3]
  exact ⟨h.2.2.2.1 (by decide), (h.2.2.1 3 rfl).2⟩

/-! ### Claim C9 -/

/-- Claim C9: whenever `reopen_if_needed` returns `Ok` the appender holds an
open handle, so the `"Cannot open file"` branch of `write` is unreachable and
`write` can fail only because opening the file or the underlying write
fails. -/
theorem C9_reopen_ok_handle_present_write_error_classified
    (a : FileAppender) (fs : Fs) (now : Nat) (buf : List Nat) :
    (∀ a' fs' evs, a.reopen_if_needed fs now = (.ok (), a', fs', evs) →
        a'.file.isSome) ∧
    (∀ e, (a.write fs now buf).1 = .error e →
        (e = .openFailed ∨ e = .writeFailed) ∧ e ≠ .cannotOpen) := by
  constructor
  · intro a' fs' evs h
    exact reopen_ok_file_isSome a fs now a' fs' evs h
  · intro e h
    have hcls : e = IoErr.openFailed ∨ e = IoErr.writeFailed := by
      unfold FileAppender.write at h
      rcases hr : a.reopen_if_needed fs now with ⟨r, a1, fs1, evs⟩
      rw [hr] at h
      cases r with
      | error e' =>
          dsimp only at h
          injection h with he
          rw [← he]
          exact Or.inl (reopen_error_classified a fs now e' (by rw [hr]))
      | ok u =>
          dsimp only at h
          rcases hf : a1.file with _ | ino
          all_goals rw [hf] at h
          · cases u
            have := reopen_ok_file_isSome a fs now a1 fs1 evs hr
            rw [hf] at this
            simp at this
          · dsimp only at h
            by_cases hw : fs1.writeFails
            all_goals simp only [hw, if_true, if_false, reduceIte] at h
            · injection h with he
              rw [← he]
              exact Or.inr rfl
            · simp at h
    refine ⟨hcls, ?_⟩
    rcases hcls with h1 | h1 <;> rw [h1] <;> simp

/-- Witness for C9: the concrete reopen on the empty filesystem succeeds and
leaves a handle in place. -/
theorem C9_witness :
    (exApp.reopen_if_needed exFs 0).2.1.file.isSome = true := by
  have h := (C9_reopen_ok_handle_present_write_error_classified exApp exFs 0 []).1
    (exApp.reopen_if_needed exFs 0).2.1
    (exApp.reopen_if_needed exFs 0).2.2.1
    (exApp.reopen_if_needed exFs 0).2.2.2
    (by rfl)
  exact h

/-! ### Claim C3: throttled reopen and stale handles -/

theorem reopen_throttled_with_handle (a : FileAppender) (fs : Fs) (now : Nat)
    (ino : Nat) (hlt : now < a.next_reopen_check) (hf : a.file = some ino) :
    a.reopen_if_needed fs now = (.ok (), a, fs, []) := by
  unfold FileAppender.reopen_if_needed
  have hc : ¬ a.next_reopen_check ≤ now := Nat.not_le.mpr hlt
  simp [hc, hf]

theorem write_throttled_with_handle (a : FileAppender) (fs : Fs) (now : Nat)
    (buf : List Nat) (ino : Nat)
    (hlt : now < a.next_reopen_check) (hf : a.file = some ino)
    (hw : fs.writeFails = false) :
    a.write fs now buf =
      (.ok buf.length,
       { a with written_size := a.written_size + buf.length },
       fs.appendIno ino buf,
       [FsEvent.wrote ino buf.length]) := by
  unfold FileAppender.write
  rw [reopen_throttled_with_handle a fs now ino hlt hf]
  simp [hf, hw]

theorem appendIno_dir (fs : Fs) (ino : Nat) (bytes : List Nat) :
    (fs.appendIno ino bytes).dir = fs.dir := rfl

theorem openAppend_spec (fs : Fs) (p : RPath) (tr : Bool)
    (hof : fs.openFails = false) :
    ∃ ino fs', fs.openAppend p tr = .ok (ino, fs.onDiskLen p tr, fs') ∧
      fs'.fexists p = true := by
  unfold Fs.openAppend Fs.onDiskLen
  rw [hof]
  cases halo : alookup fs.dir p with
  | none =>
      simp only [halo, Bool.false_eq_true, if_false, reduceIte]
      refine ⟨_, _, rfl, ?_⟩
      simp [Fs.fexists, alookup_aset]
  | some ino =>
      simp only [halo, Bool.false_eq_true, if_false, reduceIte]
      cases tr with
      | false =>
          simp only [Bool.false_eq_true, if_false, reduceIte]
          refine ⟨_, _, rfl, ?_⟩
          simp [Fs.fexists, halo]
      | true =>
          simp only [if_true, reduceIte]
          refine ⟨_, _, rfl, ?_⟩
          simp [Fs.fexists, halo]

theorem reopen_branch_spec (a : FileAppender) (fs : Fs) (now : Nat)
    (hof : fs.openFails = false)
    (hbranch : a.file = none ∨
      (a.next_reopen_check ≤ now ∧ fs.fexists a.path = false)) :
    (a.reopen_if_needed fs now).1 = .ok () ∧
    (a.reopen_if_needed fs now).2.1.written_size = fs.onDiskLen a.path a.truncate ∧
    ((a.reopen_if_needed fs now).2.2.1).fexists a.path = true ∧
    FsEvent.opened a.path ∈ (a.reopen_if_needed fs now).2.2.2 := by
  obtain ⟨ino, fs', hoa, hex⟩ := openAppend_spec fs a.path a.truncate hof
  unfold FileAppender.reopen_if_needed
  by_cases hc : a.next_reopen_check ≤ now
  · simp only [hc, if_true, reduceIte]
    have hcond : (a.file.isNone || !fs.fexists a.path) = true := by
      rcases hbranch with h1 | ⟨-, h2⟩
      · simp [h1]
      · simp [h2]
    rw [if_pos hcond, hoa]
    refine ⟨rfl, rfl, hex, ?_⟩
    simp
  · rcases hbranch with h1 | ⟨h2, -⟩
    · simp only [hc, if_false, reduceIte]
      have hcond : (a.file.isNone || !true) = true := by simp [h1]
      rw [if_pos hcond, hoa]
      refine ⟨rfl, rfl, hex, ?_⟩
      simp
    · exact absurd h2 hc

theorem reopen_throttled_no_stat (a : FileAppender) (fs : Fs) (now : Nat)
    (hc : ¬ a.next_reopen_check ≤ now) :
    FsEvent.statted a.path ∉ (a.reopen_if_needed fs now).2.2.2 := by
  unfold FileAppender.reopen_if_needed
  simp only [hc, if_false, reduceIte]
  split
  · rcases hm : fs.openAppend a.path a.truncate with e' | ⟨ino', len, fs'⟩ <;> simp
  · simp

theorem reopen_not_needed_eq (a : FileAppender) (fs : Fs) (now : Nat)
    (hc : a.next_reopen_check ≤ now) (hfile : a.file ≠ none)
    (hex : fs.fexists a.path = true) :
    a.reopen_if_needed fs now =
      (.ok (), { a with next_reopen_check := now + a.reopen_check_interval },
       fs, [FsEvent.statted a.path]) := by
  unfold FileAppender.reopen_if_needed
  simp [hc, hex, Option.isNone_iff_eq_none, hfile]

/-- Claim C3: the appender reopens exactly when the handle is absent or a
throttled (once per `reopen_check_interval`) existence check finds the path
missing; between checks no filesystem stat happens and a write lands in the
stale handle without recreating the file; once the interval has elapsed a
write re-establishes the file at the original path; and a reopen initializes
`written_size` to the actual on-disk length. -/
theorem C3_reopen_throttling_and_stale_handle
    (a : FileAppender) (fs : Fs) (now : Nat) (buf : List Nat) (ino : Nat) :
    ((FsEvent.statted a.path ∈ (a.reopen_if_needed fs now).2.2.2) ↔
        a.next_reopen_check ≤ now) ∧
    (fs.openFails = false →
      ((FsEvent.opened a.path ∈ (a.reopen_if_needed fs now).2.2.2) ↔
        (a.file = none ∨
          (a.next_reopen_check ≤ now ∧ fs.fexists a.path = false)))) ∧
    (now < a.next_reopen_check → a.file = some ino → fs.writeFails = false →
      a.write fs now buf =
        (.ok buf.length,
         { a with written_size := a.written_size + buf.length },
         fs.appendIno ino buf,
         [FsEvent.wrote ino buf.length]) ∧
      (fs.appendIno ino buf).dir = fs.dir) ∧
    (fs.openFails = false →
      (a.file = none ∨ (a.next_reopen_check ≤ now ∧ fs.fexists a.path = false)) →
      (a.reopen_if_needed fs now).2.1.written_size
        = fs.onDiskLen a.path a.truncate) ∧
    (a.next_reopen_check ≤ now → fs.openFails = false →
      ((a.reopen_if_needed fs now).2.2.1).fexists a.path = true) := by
  refine ⟨?_, ?_, ?_, ?_, ?_⟩
  · constructor
    · intro hmem
      by_contra hc
      exact reopen_throttled_no_stat a fs now hc hmem
    · intro hc
      unfold FileAppender.reopen_if_needed
      simp only [hc, if_true, reduceIte]
      split
      · rcases hm : fs.openAppend a.path a.truncate with e' | ⟨ino', len, fs'⟩ <;> simp
      · simp
  · intro hof
    constructor
    · intro hmem
      by_cases hbranch : a.file = none ∨
          (a.next_reopen_check ≤ now ∧ fs.fexists a.path = false)
      · exact hbranch
      · exfalso
        push_neg at hbranch
        obtain ⟨hfile, hrest⟩ := hbranch
        by_cases hc : a.next_reopen_check ≤ now
        · have hex : fs.fexists a.path = true := by
            rcases Bool.eq_false_or_eq_true (fs.fexists a.path) with h1 | h1
            · exact h1
            · exact absurd h1 (hrest hc)
          rw [reopen_not_needed_eq a fs now hc hfile hex] at hmem
          simp at hmem
        · obtain ⟨i, hi⟩ := Option.ne_none_iff_exists'.mp hfile
          rw [reopen_throttled_with_handle a fs now i (Nat.not_le.mp hc) hi] at hmem
          simp at hmem
    · intro hbranch
      exact (reopen_branch_spec a fs now hof hbranch).2.2.2
  · intro hlt hf hw
    exact ⟨write_throttled_with_handle a fs now buf ino hlt hf hw,
           appendIno_dir fs ino buf⟩
  · intro hof hbranch
    exact (reopen_branch_spec a fs now hof hbranch).2.1
  · intro hc hof
    by_cases hbranch : a.file = none ∨
        (a.next_reopen_check ≤ now ∧ fs.fexists a.path = false)
    · exact (reopen_branch_spec a fs now hof hbranch).2.2.1
    · push_neg at hbranch
      obtain ⟨hfile, hrest⟩ := hbranch
      have hex : fs.fexists a.path = true := by
        rcases Bool.eq_false_or_eq_true (fs.fexists a.path) with h1 | h1
        · exact h1
        · exact absurd h1 (hrest hc)
      rw [reopen_not_needed_eq a fs now hc hfile hex]
      exact hex

/-- Witness for C3, replaying scenario B: open and write at instant 0, delete
the file externally, write at instant 500 (within the throttle window — the
bytes land in the stale inode 0 and the path is not recreated), and confirm
the stat-event characterization at the concrete state. -/
theorem C3_witness :
    ((exApp.write exFs 0 [9]).2.1).write
        (((exApp.write exFs 0 [9]).2.2.1).remove (.utf8 "log")) 500 [8]
      = (.ok 1,
         { (exApp.write exFs 0 [9]).2.1 with
             written_size := ((exApp.write exFs 0 [9]).2.1).written_size + 1 },
         (((exApp.write exFs 0 [9]).2.2.1).remove (.utf8 "log")).appendIno 0 [8],
         [FsEvent.wrote 0 1]) ∧
    (FsEvent.statted (RPath.utf8 "log") ∈
      (exApp.reopen_if_needed exFs 0).2.2.2) := by
  have h3 := C3_reopen_throttling_and_stale_handle
    ((exApp.write exFs 0 [9]).2.1)
    (((exApp.write exFs 0 [9]).2.2.1).remove (.utf8 "log")) 500 [8] 0
  have h4 := C3_reopen_throttling_and_stale_handle exApp exFs 0 [] 0
  refine ⟨?_, ?_⟩
  · have := (h3.2.2.1 (by decide) (by decide) (by decide)).1
    exact this
  · exact h4.1.mpr (by decide)

/-! ### Claim C2: the rotation procedure -/

theorem string_ext_ne (s t : String) : ¬ (s ++ "." ++ t = s) := by
  intro h
  have hl := congrArg String.length h
  simp only [String.length_append] at hl
  have hdot : String.length "." = 1 := rfl
  omega

theorem string_ext2_ne (s t u : String) : ¬ (s ++ "." ++ t ++ u = s) := by
  intro h
  have hl := congrArg String.length h
  simp only [String.length_append] at hl
  have hdot : String.length "." = 1 := rfl
  omega

theorem string_d1_ne (s : String) : ¬ (s ++ ".1" = s) := by
  intro h
  have hl := congrArg String.length h
  simp only [String.length_append] at hl
  have hd : String.length ".1" = 2 := rfl
  omega

theorem specRotatedName_ne_base (s : String) (c : Bool) (i : Nat) :
    specRotatedName s c i ≠ RPath.utf8 s := by
  unfold specRotatedName
  cases c with
  | false =>
      simp only [Bool.false_eq_true, if_false, reduceIte, ne_eq, RPath.utf8.injEq]
      exact string_ext_ne s (toString i)
  | true =>
      simp only [if_true, reduceIte, ne_eq, RPath.utf8.injEq]
      exact string_ext2_ne s (toString i) ".gz"

theorem plain_one_ne_base (s : String) : RPath.utf8 (s ++ ".1") ≠ RPath.utf8 s := by
  simp only [ne_eq, RPath.utf8.injEq]
  exact string_d1_ne s

theorem rotated_path_utf8 (a : FileAppender) (s : String) (j : Nat)
    (hpath : a.path = RPath.utf8 s) :
    a.rotated_path j = .ok (specRotatedName s a.rotate_compress j) := by
  unfold FileAppender.rotated_path specRotatedName
  rw [hpath]
  cases a.rotate_compress <;> simp [RPath.toStr]

theorem shiftChain_spec (a : FileAppender) (s : String)
    (hpath : a.path = RPath.utf8 s) :
    ∀ (k : Nat) (fs : Fs),
      shiftChain a k fs =
        (.ok (), (specShift s a.rotate_compress k fs).1,
         (specShift s a.rotate_compress k fs).2) := by
  intro k
  induction k with
  | zero => intro fs; rfl
  | succ i ih =>
      intro fs
      rw [show shiftChain a (i + 1) fs =
          (match a.rotated_path (i + 1), a.rotated_path (i + 2) with
           | .ok src, .ok dst =>
               if fs.fexists src then
                 let out := shiftChain a i (fs.rename src dst)
                 (out.1, out.2.1, FsEvent.renamed src dst :: out.2.2)
               else shiftChain a i fs
           | .error e, _ => (.error e, fs, [])
           | .ok _, .error e => (.error e, fs, [])) from rfl]
      rw [rotated_path_utf8 a s (i + 1) hpath, rotated_path_utf8 a s (i + 2) hpath]
      rw [show specShift s a.rotate_compress (i + 1) fs =
          (if fs.fexists (specRotatedName s a.rotate_compress (i + 1)) then
             let out := specShift s a.rotate_compress i
               (fs.rename (specRotatedName s a.rotate_compress (i + 1))
                 (specRotatedName s a.rotate_compress (i + 2)))
             (out.1, FsEvent.renamed (specRotatedName s a.rotate_compress (i + 1))
               (specRotatedName s a.rotate_compress (i + 2)) :: out.2)
           else specShift s a.rotate_compress i fs) from rfl]
      by_cases hex : fs.fexists (specRotatedName s a.rotate_compress (i + 1))
      · simp only [hex, if_true, reduceIte, ih]
      · simp only [hex, Bool.false_eq_true, if_false, reduceIte, ih]

theorem rename_openFails (fs : Fs) (src dst : RPath) :
    (fs.rename src dst).openFails = fs.openFails := by
  unfold Fs.rename
  cases alookup fs.dir src <;> rfl

theorem specShift_openFails (s : String) (c : Bool) :
    ∀ (k : Nat) (fs : Fs), ((specShift s c k fs).1).openFails = fs.openFails := by
  intro k
  induction k with
  | zero => intro fs; rfl
  | succ i ih =>
      intro fs
      rw [show specShift s c (i + 1) fs =
          (if fs.fexists (specRotatedName s c (i + 1)) then
             let out := specShift s c i
               (fs.rename (specRotatedName s c (i + 1)) (specRotatedName s c (i + 2)))
             (out.1, FsEvent.renamed (specRotatedName s c (i + 1))
               (specRotatedName s c (i + 2)) :: out.2)
           else specShift s c i fs) from rfl]
      by_cases hex : fs.fexists (specRotatedName s c (i + 1))
      · simp only [hex, if_true, reduceIte]
        rw [ih, rename_openFails]
      · simp only [hex, Bool.false_eq_true, if_false, reduceIte, ih]

theorem specShift_fexists_base (s : String) (c : Bool) :
    ∀ (k : Nat) (fs : Fs),
      ((specShift s c k fs).1).fexists (.utf8 s) = fs.fexists (.utf8 s) := by
  intro k
  induction k with
  | zero => intro fs; rfl
  | succ i ih =>
      intro fs
      rw [show specShift s c (i + 1) fs =
          (if fs.fexists (specRotatedName s c (i + 1)) then
             let out := specShift s c i
               (fs.rename (specRotatedName s c (i + 1)) (specRotatedName s c (i + 2)))
             (out.1, FsEvent.renamed (specRotatedName s c (i + 1))
               (specRotatedName s c (i + 2)) :: out.2)
           else specShift s c i fs) from rfl]
      by_cases hex : fs.fexists (specRotatedName s c (i + 1))
      · simp only [hex, if_true, reduceIte]
        rw [ih, fexists_rename_of_ne]
        · exact (specRotatedName_ne_base s c (i + 1)).symm
        · exact (specRotatedName_ne_base s c (i + 2)).symm
      · simp only [hex, Bool.false_eq_true, if_false, reduceIte, ih]

theorem specRotation_base_absent (s : String) (c : Bool) (keep : Nat) (fs : Fs) :
    ((specRotation s c keep fs).1).fexists (.utf8 s) = false := by
  unfold specRotation
  by_cases hex : ((specShift s c keep fs).1).fexists (.utf8 s)
  · cases c with
    | false =>
        simp only [hex, if_true, Bool.false_eq_true, if_false, reduceIte]
        by_cases hdel : (((specShift s false keep fs).1).rename (.utf8 s)
            (specRotatedName s false 1)).fexists (specRotatedName s false (keep + 1))
        · simp only [hdel, if_true, reduceIte]
          rw [fexists_remove, if_neg (specRotatedName_ne_base s false (keep + 1)),
            fexists_rename_src _ _ _ (Ne.symm (specRotatedName_ne_base s false 1))]
        · simp only [hdel, Bool.false_eq_true, if_false, reduceIte]
          rw [fexists_rename_src _ _ _ (Ne.symm (specRotatedName_ne_base s false 1))]
    | true =>
        simp only [hex, if_true, Bool.false_eq_true, if_false, reduceIte]
        by_cases hdel : (((specShift s true keep fs).1).rename (.utf8 s)
            (.utf8 (s ++ ".1"))).fexists (specRotatedName s true (keep + 1))
        · simp only [hdel, if_true, reduceIte]
          rw [fexists_remove, if_neg (specRotatedName_ne_base s true (keep + 1)),
            fexists_rename_src _ _ _ (Ne.symm (plain_one_ne_base s))]
        · simp only [hdel, Bool.false_eq_true, if_false, reduceIte]
          rw [fexists_rename_src _ _ _ (Ne.symm (plain_one_ne_base s))]
  · rw [Bool.not_eq_true] at hex
    simp only [hex, Bool.false_eq_true, if_false, reduceIte]
    by_cases hdel : ((specShift s c keep fs).1).fexists (specRotatedName s c (keep + 1))
    · simp only [hdel, if_true, reduceIte]
      rw [fexists_remove, if_neg (specRotatedName_ne_base s c (keep + 1))]
      exact hex
    · simp only [hdel, Bool.false_eq_true, if_false, reduceIte]
      exact hex

theorem specRotation_openFails (s : String) (c : Bool) (keep : Nat) (fs : Fs) :
    ((specRotation s c keep fs).1).openFails = fs.openFails := by
  unfold specRotation
  by_cases hex : ((specShift s c keep fs).1).fexists (.utf8 s)
  · cases c with
    | false =>
        simp only [hex, if_true, Bool.false_eq_true, if_false, reduceIte]
        by_cases hdel : (((specShift s false keep fs).1).rename (.utf8 s)
            (specRotatedName s false 1)).fexists (specRotatedName s false (keep + 1))
        · simp only [hdel, if_true, reduceIte]
          show (Fs.remove _ _).openFails = fs.openFails
          unfold Fs.remove
          show ((specShift s false keep fs).1.rename _ _).openFails = fs.openFails
          rw [rename_openFails, specShift_openFails]
        · simp only [hdel, Bool.false_eq_true, if_false, reduceIte]
          rw [rename_openFails, specShift_openFails]
    | true =>
        simp only [hex, if_true, Bool.false_eq_true, if_false, reduceIte]
        by_cases hdel : (((specShift s true keep fs).1).rename (.utf8 s)
            (.utf8 (s ++ ".1"))).fexists (specRotatedName s true (keep + 1))
        · simp only [hdel, if_true, reduceIte]
          show (Fs.remove _ _).openFails = fs.openFails
          unfold Fs.remove
          show ((specShift s true keep fs).1.rename _ _).openFails = fs.openFails
          rw [rename_openFails, specShift_openFails]
        · simp only [hdel, Bool.false_eq_true, if_false, reduceIte]
          rw [rename_openFails, specShift_openFails]
  · rw [Bool.not_eq_true] at hex
    simp only [hex, Bool.false_eq_true, if_false, reduceIte]
    by_cases hdel : ((specShift s c keep fs).1).fexists (specRotatedName s c (keep + 1))
    · simp only [hdel, if_true, reduceIte]
      show (Fs.remove _ _).openFails = fs.openFails
      unfold Fs.remove
      show ((specShift s c keep fs).1).openFails = fs.openFails
      rw [specShift_openFails]
    · simp only [hdel, Bool.false_eq_true, if_false, reduceIte]
      rw [specShift_openFails]

theorem rotate_old_files_spec (a : FileAppender) (s : String)
    (hpath : a.path = RPath.utf8 s) (fs : Fs) :
    ∃ a2 : FileAppender,
      a.rotate_old_files fs =
        (.ok (), a2, (specRotation s a.rotate_compress a.rotate_keep fs).1,
         (specRotation s a.rotate_compress a.rotate_keep fs).2) ∧
      a2.file = a.file ∧ a2.path = RPath.utf8 s ∧ a2.truncate = a.truncate := by
  unfold FileAppender.rotate_old_files specRotation
      FileAppender.rotated_paths_for_compression
  rw [shiftChain_spec a s hpath a.rotate_keep fs]
  rw [rotated_path_utf8 a s 1 hpath, rotated_path_utf8 a s (a.rotate_keep + 1) hpath]
  rw [hpath]
  dsimp only [RPath.toStr]
  by_cases hex1 : ((specShift s a.rotate_compress a.rotate_keep fs).1).fexists
      (.utf8 s)
  · by_cases hcomp : a.rotate_compress = true
    · simp only [hcomp] at hex1 ⊢
      simp only [hex1, if_true, reduceIte]
      unfold specRotatedName
      simp only [if_true, reduceIte]
      by_cases hdel : (((specShift s true a.rotate_keep fs).1).rename (.utf8 s)
          (.utf8 (s ++ ".1"))).fexists
            (.utf8 (s ++ "." ++ toString (a.rotate_keep + 1) ++ ".gz"))
      · simp only [hdel, if_true, reduceIte]
        refine ⟨{ a with
                    path := RPath.utf8 s
                    rotate_compress := true
                    wait_compression := some CompressionWait.pending },
                ?_, rfl, rfl, rfl⟩
        simp [List.append_nil]
      · simp only [hdel, Bool.false_eq_true, if_false, reduceIte]
        refine ⟨{ a with
                    path := RPath.utf8 s
                    rotate_compress := true
                    wait_compression := some CompressionWait.pending },
                ?_, rfl, rfl, rfl⟩
        simp [List.append_nil]
    · simp only [Bool.not_eq_true] at hcomp
      simp only [hcomp] at hex1 ⊢
      simp only [hex1, if_true, Bool.false_eq_true, if_false, reduceIte]
      unfold specRotatedName
      simp only [Bool.false_eq_true, if_false, reduceIte]
      by_cases hdel : (((specShift s false a.rotate_keep fs).1).rename (.utf8 s)
          (.utf8 (s ++ "." ++ toString 1))).fexists
            (.utf8 (s ++ "." ++ toString (a.rotate_keep + 1)))
      · simp only [hdel, if_true, reduceIte]
        refine ⟨a, ?_, rfl, hpath, rfl⟩
        simp [List.append_nil]
      · simp only [hdel, Bool.false_eq_true, if_false, reduceIte]
        refine ⟨a, ?_, rfl, hpath, rfl⟩
        simp [List.append_nil]
  · rw [Bool.not_eq_true] at hex1
    simp only [hex1, Bool.false_eq_true, if_false, reduceIte]
    by_cases hdel : ((specShift s a.rotate_compress a.rotate_keep fs).1).fexists
        (specRotatedName s a.rotate_compress (a.rotate_keep + 1))
    · simp only [hdel, if_true, reduceIte]
      refine ⟨a, ?_, rfl, hpath, rfl⟩
      simp [List.append_nil]
    · simp only [hdel, Bool.false_eq_true, if_false, reduceIte]
      refine ⟨a, ?_, rfl, hpath, rfl⟩
      simp [List.append_nil]

theorem reopen_fresh_spec (a : FileAppender) (fs : Fs) (now : Nat)
    (hfile : a.file = none) (hc : a.next_reopen_check ≤ now)
    (hex : fs.fexists a.path = false) (hof : fs.openFails = false) :
    (a.reopen_if_needed fs now).1 = .ok () ∧
    (a.reopen_if_needed fs now).2.1.written_size = 0 ∧
    (a.reopen_if_needed fs now).2.1.file.isSome ∧
    ((a.reopen_if_needed fs now).2.2.1).content a.path = some [] ∧
    (a.reopen_if_needed fs now).2.2.2
      = [FsEvent.statted a.path, FsEvent.opened a.path] := by
  have hopen := openAppend_fresh fs a.path a.truncate hex hof
  unfold FileAppender.reopen_if_needed
  simp only [hc, if_true, reduceIte]
  have hcond : (a.file.isNone || !fs.fexists a.path) = true := by
    simp [hfile]
  rw [if_pos hcond, hopen]
  refine ⟨rfl, rfl, rfl, ?_, rfl⟩
  simp [Fs.content, alookup_aset]

/-- Claim C2: every rotation (with no compression job pending) performs, in
order, the chain shift for `i` from `rotate_keep` down to 1 (renaming the
existing `path.i` — or `path.i.gz` under compression — to index `i + 1`),
then moves the live file to index 1 (under compression: to the plaintext
temporary, spawning the gzip job), then deletes index `rotate_keep + 1` if
present, and finally resets `written_size` to 0 and reopens a fresh file at
the original path. -/
theorem C2_rotation_procedure (a : FileAppender) (fs : Fs) (now : Nat)
    (s : String) (hpath : a.path = RPath.utf8 s)
    (hwait : a.wait_compression = none) (hof : fs.openFails = false) :
    (a.rotate fs now).1 = .ok () ∧
    (a.rotate fs now).2.2.2
      = (specRotation s a.rotate_compress a.rotate_keep fs).2
          ++ [FsEvent.statted a.path, FsEvent.opened a.path] ∧
    (a.rotate fs now).2.1.written_size = 0 ∧
    (a.rotate fs now).2.1.file.isSome ∧
    ((a.rotate fs now).2.2.1).content a.path = some [] := by
  unfold FileAppender.rotate
  rw [hwait]
  dsimp only
  obtain ⟨a2, heq0, hfile2, hpath2, htr2⟩ :=
    rotate_old_files_spec { a with wait_compression := none, file := none } s
      (by simpa using hpath) fs
  have heq : FileAppender.rotate_old_files
      { a with wait_compression := none, file := none } fs
      = (.ok (), a2, (specRotation s a.rotate_compress a.rotate_keep fs).1,
         (specRotation s a.rotate_compress a.rotate_keep fs).2) := heq0
  rw [heq]
  dsimp only
  have hfs1of : ((specRotation s a.rotate_compress a.rotate_keep fs).1).openFails
      = false := by
    rw [specRotation_openFails]
    exact hof
  have hfs1ex : ((specRotation s a.rotate_compress a.rotate_keep fs).1).fexists
      ({ a2 with written_size := 0, next_reopen_check := now } : FileAppender).path
      = false := by
    show ((specRotation s a.rotate_compress a.rotate_keep fs).1).fexists a2.path
      = false
    rw [hpath2]
    exact specRotation_base_absent s a.rotate_compress a.rotate_keep fs
  have hr := reopen_fresh_spec
    { a2 with written_size := 0, next_reopen_check := now }
    ((specRotation s a.rotate_compress a.rotate_keep fs).1) now
    (by show a2.file = none; rw [hfile2]) (Nat.le_refl now) hfs1ex hfs1of
  have hpe : ({ a2 with written_size := 0, next_reopen_check := now }
      : FileAppender).path = a.path := by
    show a2.path = a.path
    rw [hpath2, hpath]
  refine ⟨hr.1, ?_, hr.2.1, hr.2.2.1, ?_⟩
  · rw [hr.2.2.2.2, hpe]
  · rw [← hpe]
    exact hr.2.2.2.1

/-- A filesystem with a live file and one rotated sibling, for the rotation
witness. -/
def fsR : Fs :=
  { inodes := [(0, [1]), (1, [2])]
    dir := [(RPath.utf8 "log", 0), (RPath.utf8 "log.1", 1)]
    nextIno := 2
    openFails := false
    writeFails := false }

/-- Witness for C2 at a concrete two-file chain: rotation succeeds, its trace
is exactly the specification's trace followed by the reopen, and
`written_size` is reset. -/
theorem C2_witness :
    (exApp.rotate fsR 10).1 = .ok () ∧
    (exApp.rotate fsR 10).2.2.2
      = (specRotation "log" exApp.rotate_compress exApp.rotate_keep fsR).2
          ++ [FsEvent.statted exApp.path, FsEvent.opened exApp.path] ∧
    (exApp.rotate fsR 10).2.1.written_size = 0 := by
  have h := C2_rotation_procedure exApp fsR 10 "log" rfl rfl rfl
  exact ⟨h.1, h.2.1, h.2.2.1⟩

/-! ### Claim C6: non-UTF-8 paths -/

theorem rotated_path_raw (a : FileAppender) (i : Nat) (id : Nat)
    (hpath : a.path = RPath.raw id) : a.rotated_path i = .error .invalidInput := by
  unfold FileAppender.rotated_path
  rw [hpath]
  rfl

theorem shiftChain_raw (a : FileAppender) (id : Nat)
    (hpath : a.path = RPath.raw id) :
    ∀ (k : Nat) (fs : Fs),
      shiftChain a k fs =
        if k = 0 then (.ok (), fs, []) else (.error .invalidInput, fs, []) := by
  intro k fs
  cases k with
  | zero => rfl
  | succ i =>
      rw [show shiftChain a (i + 1) fs =
          (match a.rotated_path (i + 1), a.rotated_path (i + 2) with
           | .ok src, .ok dst =>
               if fs.fexists src then
                 let out := shiftChain a i (fs.rename src dst)
                 (out.1, out.2.1, FsEvent.renamed src dst :: out.2.2)
               else shiftChain a i fs
           | .error e, _ => (.error e, fs, [])
           | .ok _, .error e => (.error e, fs, [])) from rfl]
      rw [rotated_path_raw a (i + 1) id hpath, rotated_path_raw a (i + 2) id hpath]
      simp

theorem rotate_old_files_raw (a : FileAppender) (id : Nat)
    (hpath : a.path = RPath.raw id) (fs : Fs) :
    a.rotate_old_files fs = (.error .invalidInput, a, fs, []) := by
  unfold FileAppender.rotate_old_files
  rw [shiftChain_raw a id hpath a.rotate_keep fs]
  cases hk : a.rotate_keep with
  | zero =>
      simp only [reduceIte]
      by_cases hex : fs.fexists a.path
      all_goals simp only [hex, if_true, Bool.false_eq_true, if_false, reduceIte,
        rotated_path_raw a 1 id hpath, rotated_path_raw a (0 + 1) id hpath]
      all_goals try rfl
  | succ n =>
      simp only [Nat.succ_ne_zero, reduceIte]
      try rfl

/-- Claim C6: a file-logger configuration whose target path is not valid
UTF-8 is rejected with the invalid-input error at build time; constructing a
rotated sibling name for a non-UTF-8 path yields an input error, and rotation
returns that error leaving the filesystem untouched with no rename, move or
delete performed. -/
theorem C6_non_utf8_path_rejected (c : FileLoggerConfig) (a : FileAppender)
    (fs : Fs) (ts : String) (now : Nat) (i id : Nat) :
    (c.path = RPath.raw id → c.try_to_builder ts now = .error .invalid) ∧
    (a.path = RPath.raw id → a.rotated_path i = .error .invalidInput) ∧
    (a.path = RPath.raw id → a.wait_compression = none →
      a.rotate fs now =
        (.error .invalidInput,
         { a with wait_compression := none, file := none }, fs, [])) := by
  refine ⟨?_, ?_, ?_⟩
  · intro hp
    unfold FileLoggerConfig.try_to_builder
    rw [hp]
    rfl
  · intro hp
    exact rotated_path_raw a i id hp
  · intro hp hwait
    unfold FileAppender.rotate
    rw [hwait]
    dsimp only
    rw [rotate_old_files_raw { a with wait_compression := none, file := none }
      id (by simpa using hp) fs]

/-- A configuration with a non-UTF-8 path. -/
def cRaw : FileLoggerConfig :=
  { level := Severity.default
    format := Format.default
    source_location := .moduleAndLine
    timezone := .utc
    timestamp_template := "%Y%m%d_%H%M"
    path := RPath.raw 0
    channel_size := 1024
    truncate := false
    rotate_size := default_rotate_size
    rotate_keep := 8
    rotate_compress := false
    overflow_strategy := .dropAndReport
    restrict_permissions := false }

/-- Witness for C6: the concrete non-UTF-8 configuration is rejected at build
time and the concrete rotation fails without touching the filesystem. -/
theorem C6_witness :
    cRaw.try_to_builder "ts" 0 = .error .invalid ∧
    ({ exApp with path := RPath.raw 0 } : FileAppender).rotate exFs 0 =
      (.error .invalidInput,
       { ({ exApp with path := RPath.raw 0 } : FileAppender) with
           wait_compression := none, file := none }, exFs, []) := by
  have h := C6_non_utf8_path_rejected cRaw
    ({ exApp with path := RPath.raw 0 }) exFs "ts" 0 1 0
  exact ⟨h.1 rfl, h.2.2 rfl rfl⟩

/-! ### Claim C7: building twice -/

/-- Claim C7: `build` reads the builder through a shared reference — it is a
pure function, so an unmodified builder yields loggers with identical
configuration-derived behaviour — while each build clones the appender with
no open handle, zero `written_size`, no pending compression and a fresh
reopen-check instant. -/
theorem C7_build_twice_independent (b : FileLoggerBuilder) (t1 t2 : Nat) :
    (b.build t1).format = (b.build t2).format ∧
    (b.build t1).level = (b.build t2).level ∧
    (b.build t1).source_location = (b.build t2).source_location ∧
    (b.build t1).overflow_strategy = (b.build t2).overflow_strategy ∧
    (b.build t1).channel_size = (b.build t2).channel_size ∧
    (b.build t1).timezone = (b.build t2).timezone ∧
    (b.build t1).appender.path = b.appender.path ∧
    (b.build t1).appender.rotate_size = b.appender.rotate_size ∧
    (b.build t1).appender.rotate_keep = b.appender.rotate_keep ∧
    (b.build t1).appender.rotate_compress = b.appender.rotate_compress ∧
    (b.build t1).appender.truncate = b.appender.truncate ∧
    (b.build t1).appender.reopen_check_interval
      = b.appender.reopen_check_interval ∧
    (b.build t1).appender.restrict_permissions
      = b.appender.restrict_permissions ∧
    (b.build t1).appender.file = none ∧
    (b.build t1).appender.written_size = 0 ∧
    (b.build t1).appender.wait_compression = none ∧
    (b.build t1).appender.next_reopen_check = t1 ∧
    (b.build t2).appender.next_reopen_check = t2 ∧
    (b.build t1).appender = b.appender.clone t1 :=
  ⟨rfl, rfl, rfl, rfl, rfl, rfl, rfl, rfl, rfl, rfl, rfl, rfl, rfl, rfl, rfl,
   rfl, rfl, rfl, rfl⟩

/-! ### Claim C8: the terminal destination (corrected) -/

/-- Counterexample to C8 as stated: the default destination — both the
builder's and the configuration default — is `Stdout`, not `Stderr`. -/
theorem C8_counterexample :
    TerminalLoggerBuilder.new.destination = Destination.stdout ∧
    terminalConfigDefaultDestination = Destination.stdout ∧
    Destination.stdout ≠ Destination.stderr :=
  ⟨rfl, rfl, by decide⟩

/-- Claim C8 (amended): the terminal destination option accepts exactly the
values `stdout` and `stderr`, and when unset (builder default and
configuration-document default) it is `stdout`. -/
theorem C8_destination_values_and_default :
    (∀ str : String,
      (parseDestination str).isSome ↔ (str = "stdout" ∨ str = "stderr")) ∧
    parseDestination "stdout" = some Destination.stdout ∧
    parseDestination "stderr" = some Destination.stderr ∧
    deserializeDestination none = .ok Destination.stdout ∧
    TerminalLoggerBuilder.new.destination = Destination.stdout ∧
    terminalConfigDefaultDestination = Destination.stdout := by
  refine ⟨?_, rfl, rfl, rfl, rfl, rfl⟩
  intro str
  unfold parseDestination
  by_cases h1 : str = "stdout"
  · simp [h1]
  · by_cases h2 : str = "stderr" <;> simp [h1, h2]

/-- Witness for the amended C8 at the concrete token `"stdout"`. -/
theorem C8_witness : (parseDestination "stdout").isSome :=
  (C8_destination_values_and_default.1 "stdout").mpr (Or.inl rfl)

/-! ### Claim C4: syslog drop discipline -/

/-- Claim C4: dropping a syslog sink that owns its identity calls the OS
close primitive and clears the process-wide slot exactly when the slot still
equals its own identity pointer; otherwise the string is freed without any
close.  For two sinks with distinct owned identities constructed in order,
dropping the first performs no close and dropping the second performs exactly
one. -/
theorem C4_drop_closes_iff_slot_matches (p : Nat) (str : String)
    (g : SyslogGlobal) :
    (g.lastUniqueIdent = p →
      SyslogDrain.dropDrain ⟨some (p, str)⟩ g =
        { g with lastUniqueIdent := 0,
                 events := g.events
                   ++ [SysEvent.closeLog, SysEvent.dropOwnedIdent str] }) ∧
    (g.lastUniqueIdent ≠ p →
      SyslogDrain.dropDrain ⟨some (p, str)⟩ g =
        { g with events := g.events ++ [SysEvent.dropOwnedIdent str] }) ∧
    (countClose
        (SyslogDrain.dropDrain
          (SyslogDrain.new (.owned "a") SyslogGlobal.init).1
          (SyslogDrain.new (.owned "b")
            (SyslogDrain.new (.owned "a") SyslogGlobal.init).2).2).events = 0) ∧
    (countClose
        (SyslogDrain.dropDrain
          (SyslogDrain.new (.owned "b")
            (SyslogDrain.new (.owned "a") SyslogGlobal.init).2).1
          (SyslogDrain.dropDrain
            (SyslogDrain.new (.owned "a") SyslogGlobal.init).1
            (SyslogDrain.new (.owned "b")
              (SyslogDrain.new (.owned "a") SyslogGlobal.init).2).2)).events
      = 1) := by
  refine ⟨?_, ?_, by decide, by decide⟩
  · intro h
    unfold SyslogDrain.dropDrain
    simp [h]
  · intro h
    unfold SyslogDrain.dropDrain
    simp [h]

/-- Witness for C4 at a concrete registry whose slot holds the drain's own
pointer. -/
theorem C4_witness :
    SyslogDrain.dropDrain ⟨some (1, "a")⟩
        { lastUniqueIdent := 1, nextPtr := 2, events := [] }
      = { lastUniqueIdent := 0, nextPtr := 2,
          events := [SysEvent.closeLog, SysEvent.dropOwnedIdent "a"] } :=
  (C4_drop_closes_iff_slot_matches 1 "a"
    { lastUniqueIdent := 1, nextPtr := 2, events := [] }).1 rfl

/-! ### Claim C10: borrowed idents null the slot -/

/-- Claim C10: constructing a sink with a non-null borrowed ident overwrites
the process-wide slot with null, so that sink never calls close on drop, and
an owned-ident sink registered earlier no longer calls close when dropped
afterwards. -/
theorem C10_borrowed_ident_nulls_slot (str so : String) (g : SyslogGlobal)
    (p : Nat) :
    ((SyslogDrain.new (.borrowed str) g).2).lastUniqueIdent = 0 ∧
    ((SyslogDrain.new (.borrowed str) g).1).unique_ident = none ∧
    (∀ d : SyslogDrain, d.unique_ident = none →
      SyslogDrain.dropDrain d g = g) ∧
    (p ≠ 0 → ∀ g' : SyslogGlobal, g'.lastUniqueIdent = 0 →
      SyslogDrain.dropDrain ⟨some (p, so)⟩ g' =
        { g' with events := g'.events ++ [SysEvent.dropOwnedIdent so] }) ∧
    (countClose
        (SyslogDrain.dropDrain
          (SyslogDrain.new (.borrowed "logger2")
            (SyslogDrain.new (.owned "sloggers-example-app")
              SyslogGlobal.init).2).1
          (SyslogDrain.dropDrain
            (SyslogDrain.new (.owned "sloggers-example-app")
              SyslogGlobal.init).1
            (SyslogDrain.new (.borrowed "logger2")
              (SyslogDrain.new (.owned "sloggers-example-app")
                SyslogGlobal.init).2).2)).events = 0) := by
  refine ⟨rfl, rfl, ?_, ?_, by decide⟩
  · intro d h
    unfold SyslogDrain.dropDrain
    rw [h]
  · intro hp g' h0
    unfold SyslogDrain.dropDrain
    have : ¬ g'.lastUniqueIdent = p := by
      rw [h0]
      exact fun h => hp h.symm
    simp [this]

/-- Witness for C10: dropping an owned-ident drain after the slot was nulled
by a borrowed-ident registration performs no close. -/
theorem C10_witness :
    SyslogDrain.dropDrain ⟨some (1, "sloggers-example-app")⟩
        { lastUniqueIdent := 0, nextPtr := 3, events := [] }
      = { lastUniqueIdent := 0, nextPtr := 3,
          events := [SysEvent.dropOwnedIdent "sloggers-example-app"] } :=
  (C10_borrowed_ident_nulls_slot "x" "sloggers-example-app"
      SyslogGlobal.init 1).2.2.2.1 (by decide)
    { lastUniqueIdent := 0, nextPtr := 3, events := [] } rfl

/-! ### Claim C5: failure handling on the consumer thread (corrected) -/

/-- Outcome of the background consumer thread: still running, or terminated
by the fused drain raising a panic. -/
inductive FuseOutcome where
  | running
  | panicked (e : IoErr)
deriving DecidableEq, Repr

/-- One record consumed by the file sink: the formatter writes the encoded
record through the appender and then flushes (the `Write` impl of
`FileAppender`, src/file.rs); either step's I/O error becomes the drain
error the formatter surfaces. -/
def fileSinkConsumeOne (a : FileAppender) (fs : Fs) (now : Nat)
    (bytes : List Nat) : Except IoErr (FileAppender × Fs) :=
  match a.write fs now bytes with
  | (.error e, _, _, _) => .error e
  | (.ok _, a1, fs1, _) =>
    match a1.flush fs1 now with
    | (.error e, _, _, _) => .error e
    | (.ok _, a2, fs2, _) => .ok (a2, fs2)

/-- The consumer thread `build_with_drain` wires up with
`Async::new(drain.fuse())` (src/build.rs): it drains the backlog in order,
feeding each record to the sink drain wrapped in the slog crate's `Fuse`,
whose `log` panics on the inner drain's error — so the first failing record
terminates the thread and the rest of the backlog is never delivered.
Returns the thread's outcome and the number of records delivered. -/
def fusedConsume (a : FileAppender) (fs : Fs) (now : Nat) :
    List (List Nat) → FuseOutcome × Nat
  | [] => (.running, 0)
  | bytes :: rest =>
    match fileSinkConsumeOne a fs now bytes with
    | .error e => (.panicked e, 0)
    | .ok (a1, fs1) =>
      let out := fusedConsume a1 fs1 now rest
      (out.1, out.2 + 1)

/-- Counterexample to C5 as stated: on the file sink, a write failure while
the record `[1]` is being consumed panics the fused drain and terminates the
consumer thread, and the subsequent record `[2]` is never delivered — the
failure is not converted to a fallback write and the pipeline does not keep
working. -/
theorem C5_counterexample :
    fusedConsume exApp { exFs with writeFails := true } 0 [[1], [2]]
      = (FuseOutcome.panicked IoErr.writeFailed, 0) := by
  rfl

/-- Claim C5 (amended): in the syslog drain, a formatting failure while a
record is consumed never fails the drain — its error type is uninhabited —
and is converted into a best-effort fallback write of the raw message plus a
separate error message, so the whole backlog is processed; in the file sink,
whose drain `build_with_drain` wraps in the panicking `Fuse`, an I/O failure
while a record is consumed terminates the consumer thread and leaves the
rest of the backlog undelivered. -/
theorem C5_fallback_in_syslog_fused_panic_in_file
    (fmt : LogRecord → Except String String) (r : LogRecord)
    (rs : List LogRecord) (e : String) (a : FileAppender) (fs : Fs)
    (now : Nat) (bytes : List Nat) (rest : List (List Nat)) (e2 : IoErr) :
    (SyslogDrain.log fmt r = .ok (SyslogDrain.logEvents fmt r)) ∧
    (∀ x : SlogNever, False) ∧
    (fmt r = .error e →
      SyslogDrain.logEvents fmt r =
        [SysEvent.sysLog (priorityOf r.level) "%s" (to_cstring_lossy r.msg),
         SysEvent.sysLog 3 "Error fully formatting the previous log message: %s"
           (to_cstring_lossy e)]) ∧
    ((consumeAll fmt rs).length = rs.length) ∧
    (fileSinkConsumeOne a fs now bytes = .error e2 →
      fusedConsume a fs now (bytes :: rest) = (.panicked e2, 0)) := by
  refine ⟨rfl, ?_, ?_, ?_, ?_⟩
  · intro hx
    cases hx
  · intro hf
    unfold SyslogDrain.logEvents
    rw [hf]
    rfl
  · simp [consumeAll]
  · intro hfail
    unfold fusedConsume
    rw [hfail]

/-- Witness for the amended C5: a concrete always-failing formatter produces
the fallback events, and a concrete failing file write panics the fused
consumer. -/
theorem C5_witness :
    SyslogDrain.logEvents (fun _ => .error "boom") ⟨Level.info, "hello"⟩ =
      [SysEvent.sysLog 6 "%s" (to_cstring_lossy "hello"),
       SysEvent.sysLog 3 "Error fully formatting the previous log message: %s"
         (to_cstring_lossy "boom")] ∧
    fusedConsume exApp { exFs with writeFails := true } 0 [[1]]
      = (FuseOutcome.panicked IoErr.writeFailed, 0) := by
  have h := C5_fallback_in_syslog_fused_panic_in_file (fun _ => .error "boom")
    ⟨Level.info, "hello"⟩ [] "boom" exApp { exFs with writeFails := true }
    0 [1] [] .writeFailed
  exact ⟨h.2.2.1 rfl, h.2.2.2.2 rfl⟩

end Sloggers
